import Mathlib

/-!
# Verification of the QR membership system's signed-token login flow

This file gives a shallow embedding of the parts of `app.py` and
`database.py` (repository RJROHAN007/QR) that the specification's claims
are about, and proves or refutes each claim.

* Token codec: the application signs `{'member_id': m}` with
  `itsdangerous.URLSafeSerializer` (`app.py` lines 15-16, 72) and decodes
  it in `secure_login` (lines 630-640).  The `itsdangerous` library itself
  is not part of the repository, so the codec is modelled from the spec's
  contract (§4.1): a keyed, tamper-evident, dot-separated
  `payload.signature` string over a character alphabet; `decode` fails
  when the signature does not verify or the string is malformed.
* Relational store: `database.py`'s `UserDB` methods used by the claims
  (`get_user_by_id`, `verify_password`, `log_login_attempt`,
  `change_user_password`, `change_own_password`, `bulk_update_users`).
* Flask handlers: `login`, `secure_login`, `admin_view_profile` and the
  `change_own_password` route, as state transformers on
  `(Session, UserDB)` returning an explicit `Response`.

Tokens are modelled as lists of character codes (`List Nat`), so that
single-character tampering can be stated positionally.
-/

namespace QRSys

/-! ## Token codec, modelled from the spec

Modelled from the spec: the `itsdangerous.URLSafeSerializer` used at
`app.py` lines 15-16 is an external library, absent from the repository.
Per spec §4.1 the codec binds the payload to a secret via a keyed
signature appended after a `.` separator; `decode` recovers the payload
only when the signature recomputed from the received payload matches.

Character codes: `46` is the `.` separator; payload bytes are kept out of
the separator alphabet by shifting every character code by `100`; `50`,
`51`, `52` are internal field markers. -/

/-- One character of a plaintext string, shifted into the payload alphabet
(always `≥ 100`, hence never a separator or marker). -/
def encChar (c : Char) : Nat := c.toNat + 100

/-- A plaintext string as a list of shifted character codes. -/
def encStr (s : String) : List Nat := s.data.map encChar

/-- Partial inverse of `encChar`. -/
def decChar (n : Nat) : Option Char :=
  if 100 ≤ n ∧ Nat.isValidChar (n - 100) then some (Char.ofNat (n - 100)) else none

/-- Decode a list of shifted codes into characters; fails on any code
outside the shifted alphabet. -/
def decStrAux : List Nat → Option (List Char)
  | [] => some []
  | n :: rest =>
    match decChar n, decStrAux rest with
    | some c, some cs => some (c :: cs)
    | _, _ => none

/-- Partial inverse of `encStr`. -/
def decStr (l : List Nat) : Option String :=
  (decStrAux l).map (fun cs => String.mk cs)

/-- The token payload is a dictionary: a finite map from string keys to
string values, as produced by `serializer.dumps({...})`. -/
def Payload : Type := List (String × String)

/-- Serialisation of a payload dictionary into the payload alphabet:
each entry is `key ++ [50] ++ value ++ [51]`. -/
def serializePayload : List (String × String) → List Nat
  | [] => []
  | (k, v) :: rest => encStr k ++ 50 :: (encStr v ++ 51 :: serializePayload rest)

/-- Split a list at the first occurrence of `sep`: returns the part before
and the part after, or `none` when `sep` does not occur. -/
def takeUntil (sep : Nat) : List Nat → Option (List Nat × List Nat)
  | [] => none
  | n :: rest =>
    if n = sep then some ([], rest)
    else
      match takeUntil sep rest with
      | some (a, b) => some (n :: a, b)
      | none => none

/-- Fuel-indexed payload parser (fuel bounds the number of entries). -/
def deserializeAux : Nat → List Nat → Option (List (String × String))
  | _, [] => some []
  | 0, _ :: _ => none
  | fuel + 1, l =>
    match takeUntil 50 l with
    | none => none
    | some (kpart, rest1) =>
      match takeUntil 51 rest1 with
      | none => none
      | some (vpart, rest2) =>
        match decStr kpart, decStr vpart with
        | some k, some v =>
          match deserializeAux fuel rest2 with
          | some tail => some ((k, v) :: tail)
          | none => none
        | _, _ => none

/-- Partial inverse of `serializePayload`. -/
def deserializePayload (l : List Nat) : Option (List (String × String)) :=
  deserializeAux l.length l

/-- Keyed signature of a message: an injective function of the pair
`(secret, message)`, modelling the spec's unforgeable-without-the-secret
HMAC contract. -/
def macSign (secret : String) (msg : List Nat) : List Nat :=
  encStr secret ++ 52 :: msg

/-- `serializer.dumps(payload)`: serialised payload, a `.` separator, then
the signature of the serialised payload under the secret. -/
def dumps (secret : String) (kvs : List (String × String)) : List Nat :=
  serializePayload kvs ++ 46 :: macSign secret (serializePayload kvs)

/-- Split a token at its last `.` separator (as `itsdangerous` does). -/
def splitLastDot (t : List Nat) : Option (List Nat × List Nat) :=
  match takeUntil 46 t.reverse with
  | some (sigRev, payloadRev) => some (payloadRev.reverse, sigRev.reverse)
  | none => none

/-- `serializer.loads(token)`: split at the last separator, verify the
signature of the received payload part, then deserialise it.  `none`
models the `BadSignature`/`BadPayload` exceptions. -/
def loads (secret : String) (t : List Nat) : Option (List (String × String)) :=
  match splitLastDot t with
  | none => none
  | some (p, s) => if s = macSign secret p then deserializePayload p else none

/-- Python `dict.get(k)` over the decoded payload dictionary. -/
def dictGet (k : String) (kvs : List (String × String)) : Option String :=
  (kvs.find? (fun kv => kv.1 == k)).map (fun kv => kv.2)

/-- The token minted for a member by `generate_qr_code` (`app.py` line 72):
`serializer.dumps({'member_id': member_id})`. -/
def qrToken (secret member_id : String) : List Nat :=
  dumps secret [("member_id", member_id)]

/-! ## The relational store (`database.py`, class `UserDB`)

Rows of the `users` table (timestamp columns are not modelled; no claim
mentions them).  `member_id` is the primary key. -/

/-- A row of the `users` table. -/
structure Member where
  member_id : String
  name : String
  date_of_birth : String
  address : String
  blood_group : String
  phone : String
  image_path : String
  membership_type : String
  membership_joining_date : String
  membership_renewal_date : String
  password : String
deriving Repr, DecidableEq

/-- A row of the `login_logs` table (`log_login_attempt`); the
`member_id` column is nullable. -/
structure LoginLog where
  member_id : Option String
  success : Bool
deriving Repr, DecidableEq

/-- The database state: the `users` table and the append-only
`login_logs` table (newest record last). -/
structure DB where
  users : List Member
  login_logs : List LoginLog
deriving Repr, DecidableEq

/-- `SELECT ... FROM users WHERE member_id = ?` for a possibly-NULL id:
`= NULL` matches no row, mirroring `get_user_by_id` called with `None`. -/
def rowFor (db : DB) (mid : Option String) : Option Member :=
  match mid with
  | none => none
  | some i => db.users.find? (fun u => u.member_id == i)

/-- `UserDB.get_user_by_id` (`database.py` lines 166-182). -/
def get_user_by_id (db : DB) (mid : Option String) : Option Member :=
  rowFor db mid

/-- `UserDB.log_login_attempt` (`database.py` lines 210-221): inserts one
row into `login_logs`. -/
def log_login_attempt (db : DB) (mid : Option String) (success : Bool) : DB :=
  { db with login_logs := db.login_logs ++ [⟨mid, success⟩] }

/-- `UserDB.verify_password` (`database.py` lines 184-208): fetches the
stored password for `mid`, compares it to `password`, logs the attempt
with the corresponding success flag, and returns the flag. -/
def verify_password (db : DB) (mid : Option String) (password : String) :
    Bool × DB :=
  match rowFor db mid with
  | some row =>
    if row.password = password then (true, log_login_attempt db mid true)
    else (false, log_login_attempt db mid false)
  | none => (false, log_login_attempt db mid false)

/-- `UserDB.change_user_password` (`database.py` lines 516-537):
`UPDATE users SET password = ? WHERE member_id = ?`; succeeds iff the
update matched at least one row. -/
def change_user_password (db : DB) (mid : Option String) (new_password : String) :
    (Bool × String) × DB :=
  let hits := fun u : Member =>
    match mid with
    | some i => u.member_id == i
    | none => false
  let users' := db.users.map (fun u =>
    if hits u then { u with password := new_password } else u)
  let rowcount := db.users.countP hits
  if rowcount > 0 then
    ((true, "Password changed successfully!"), { db with users := users' })
  else
    ((false, "User not found!"), { db with users := users' })

/-- `UserDB.change_own_password` (`database.py` lines 539-546): verifies
the current password (which also logs a login attempt), then delegates to
`change_user_password`. -/
def db_change_own_password (db : DB) (mid : Option String)
    (current_password new_password : String) : (Bool × String) × DB :=
  let vr := verify_password db mid current_password
  if vr.1 then change_user_password vr.2 mid new_password
  else ((false, "Current password is incorrect!"), vr.2)

/-! ## Sessions and HTTP plumbing (`app.py`) -/

/-- The Flask session cookie: the keys this application ever sets.
`Session.clear()` is the default value (all keys absent). -/
structure Session where
  member_id : Option String := none
  logged_in : Bool := false
  is_admin : Bool := false
  admin_username : Option String := none
deriving Repr, DecidableEq

/-- HTTP request method. -/
inductive Method where
  | get
  | post
deriving Repr, DecidableEq

/-- The observable outcome of a request: which template is rendered with
which data and status, or which route is redirected to. -/
inductive Response where
  /-- `render_template('error.html', error=msg), status` -/
  | errorPage (msg : String) (status : Nat)
  /-- `render_template('login.html', user=user, error=err)` — the
  password prompt scoped to `user`. -/
  | loginPage (user : Member) (error : Option String)
  /-- `redirect(url_for('user_profile', member_id=mid))` -/
  | redirectUserProfile (mid : Option String)
  /-- `redirect(url_for('login', member_id=mid))` -/
  | redirectLogin (mid : Option String)
  /-- `redirect(url_for('home'))` -/
  | redirectHome
  /-- `redirect(url_for('admin_login'))` -/
  | redirectAdminLogin
  /-- `redirect(url_for('admin_users'))` -/
  | redirectAdminUsers
  /-- `render_template('user_profile.html', user=user, ...,
  is_admin_view=adminView)` -/
  | profilePage (user : Member) (adminView : Bool)
deriving Repr, DecidableEq

/-- The result of one request: response, outgoing session, new DB. -/
def HandlerResult : Type := Response × Session × DB

/-- The `login` handler (`app.py` lines 165-211).  `mid` is the
`<member_id>` URL part, or the value extracted from a token when called
from `secure_login` (possibly `None`).  `form_password` is the POST
field `password` (absent fields read as `''` via `form.get`). -/
def login (mid : Option String) (method : Method)
    (form_password : Option String) (s : Session) (db : DB) : HandlerResult :=
  match get_user_by_id db mid with
  | none =>
    (.errorPage "User not found! Please check your QR code." 404, s, db)
  | some user =>
    -- session.clear() happens before any branch below (line 177)
    let s1 : Session := {}
    match method with
    | .get => (.loginPage user none, s1, db)
    | .post =>
      let password := form_password.getD ""
      if password = "" then
        (.loginPage user (some "❌ Password is required!"), s1, db)
      else
        let vr := verify_password db mid password
        if vr.1 then
          (.redirectUserProfile mid,
            { s1 with member_id := mid, logged_in := true }, vr.2)
        else
          (.loginPage user (some "❌ Invalid password! Please try again."), s1, vr.2)

/-- The `secure_login` handler (`app.py` lines 630-640): decode the
token; on any decoding failure render a 403 error page; otherwise behave
exactly as `login` on the extracted `member_id`. -/
def secure_login (secret : String) (token : List Nat) (method : Method)
    (form_password : Option String) (s : Session) (db : DB) : HandlerResult :=
  match loads secret token with
  | none => (.errorPage "Invalid or expired QR code!" 403, s, db)
  | some data => login (dictGet "member_id" data) method form_password s db

/-- The `admin_view_profile` handler (`app.py` lines 592-620), including
the `admin_required` guard (lines 97-106). -/
def admin_view_profile (mid : String) (s : Session) (db : DB) : HandlerResult :=
  if !s.is_admin then (.redirectAdminLogin, s, db)
  else
    match get_user_by_id db (some mid) with
    | none => (.redirectAdminUsers, s, db)
    | some user => (.profilePage user true, s, db)

/-- The `change_own_password` route (`app.py` lines 553-590). -/
def change_own_password_route (current new confirm : Option String)
    (s : Session) (db : DB) : HandlerResult :=
  if !s.logged_in then (.redirectHome, s, db)
  else
    let mid := s.member_id
    -- `if not all([current_password, new_password, confirm_password])`
    if current.getD "" = "" ∨ new.getD "" = "" ∨ confirm.getD "" = "" then
      (.redirectUserProfile mid, s, db)
    else if new ≠ confirm then
      (.redirectUserProfile mid, s, db)
    else if (new.getD "").length < 6 then
      (.redirectUserProfile mid, s, db)
    else
      let r := db_change_own_password db mid (current.getD "") (new.getD "")
      if r.1.1 then (.redirectLogin mid, {}, r.2)
      else (.redirectUserProfile mid, s, r.2)

/-! ## Bulk update (`database.py` lines 568-628)

`UserDB` defines `bulk_update_users` twice; Python keeps the later
definition (line 568, the "FIXED" one), which is the one modelled here.
Dates are strings parsed by `strptime('%Y-%m-%d')`; the parser below
models Python's: it validates month and day ranges (leap years included)
and `replace(year=year+1)` fails exactly on Feb 29 of a year whose
successor is not a leap year. -/

/-- Gregorian leap-year test. -/
def isLeap (y : Nat) : Bool := (y % 4 == 0 && y % 100 != 0) || y % 400 == 0

/-- Days in a month. -/
def daysInMonth (y m : Nat) : Nat :=
  if m = 2 then (if isLeap y then 29 else 28)
  else if m = 4 ∨ m = 6 ∨ m = 9 ∨ m = 11 then 30
  else 31

/-- Model of `datetime.strptime(s, '%Y-%m-%d')`. -/
def strptimeYmd (s : String) : Option (Nat × Nat × Nat) :=
  match s.splitOn "-" with
  | [ys, ms, ds] =>
    match ys.toNat?, ms.toNat?, ds.toNat? with
    | some y, some m, some d =>
      if 1 ≤ m ∧ m ≤ 12 ∧ 1 ≤ d ∧ d ≤ daysInMonth y m then some (y, m, d)
      else none
    | _, _, _ => none
  | _ => none

/-- Model of `dt.replace(year=dt.year + 1)`: fails (raises) when the day
does not exist in the new year. -/
def replaceYearSucc (ymd : Nat × Nat × Nat) : Option (Nat × Nat × Nat) :=
  if ymd.2.2 ≤ daysInMonth (ymd.1 + 1) ymd.2.1 then
    some (ymd.1 + 1, ymd.2.1, ymd.2.2)
  else none

/-- Two-digit zero padding for `strftime`. -/
def pad2 (n : Nat) : String := if n < 10 then "0" ++ toString n else toString n

/-- Model of `dt.strftime('%Y-%m-%d')`. -/
def fmtYmd (ymd : Nat × Nat × Nat) : String :=
  toString ymd.1 ++ "-" ++ pad2 ymd.2.1 ++ "-" ++ pad2 ymd.2.2

/-- The field whitelist of the bulk update (`database.py` lines 582-585). -/
def bulkFields : List String :=
  ["name", "date_of_birth", "address", "blood_group", "phone",
   "image_path", "membership_type", "membership_joining_date",
   "membership_renewal_date"]

/-- Apply one SQL `SET field = value` assignment to a row. -/
def applyField (u : Member) (f v : String) : Member :=
  if f = "name" then { u with name := v }
  else if f = "date_of_birth" then { u with date_of_birth := v }
  else if f = "address" then { u with address := v }
  else if f = "blood_group" then { u with blood_group := v }
  else if f = "phone" then { u with phone := v }
  else if f = "image_path" then { u with image_path := v }
  else if f = "membership_type" then { u with membership_type := v }
  else if f = "membership_joining_date" then { u with membership_joining_date := v }
  else if f = "membership_renewal_date" then { u with membership_renewal_date := v }
  else u

/-- The `SET` clause built for one record: the whitelisted fields of the
update dictionary, then the automatic `membership_renewal_date`
assignment (`database.py` lines 589-611).  The `updated_at` column is not
modelled. -/
def bulkAssignments (db : DB) (mid : String) (ud : List (String × String)) :
    List (String × String) :=
  let base := ud.filter (fun fv => bulkFields.contains fv.1)
  let renewal :=
    match dictGet "membership_type" ud with
    | none => []
    | some v =>
      if v = "lifetime" then [("membership_renewal_date", "2099-12-31")]
      else
        match rowFor db (some mid) with
        | none => []
        | some row =>
          if row.membership_joining_date = "" then []
          else
            match strptimeYmd row.membership_joining_date with
            | none => []
            | some ymd =>
              match replaceYearSucc ymd with
              | none => []
              | some ymd2 => [("membership_renewal_date", fmtYmd ymd2)]
  base ++ renewal

/-- One iteration of the bulk-update loop: executes the `UPDATE` for one
record against the current state and reports whether a row was matched
(`cursor.rowcount > 0`). -/
def bulkApplyOne (db : DB) (mid : String) (ud : List (String × String)) :
    Nat × DB :=
  let asgn := bulkAssignments db mid ud
  let users' := db.users.map (fun u =>
    if u.member_id == mid then
      asgn.foldl (fun acc fv => applyField acc fv.1 fv.2) u
    else u)
  let rowcount := db.users.countP (fun u => u.member_id == mid)
  (if rowcount > 0 then 1 else 0, { db with users := users' })

/-- The bulk-update loop over the `updates_data` dictionary (insertion
order). -/
def bulkLoop : DB → Nat → List (String × List (String × String)) → Nat × DB
  | db, acc, [] => (acc, db)
  | db, acc, (mid, ud) :: rest =>
    let r := bulkApplyOne db mid ud
    bulkLoop r.2 (acc + r.1) rest

/-- `UserDB.bulk_update_users` (`database.py` lines 568-628, the later of
the two definitions, which is the one Python keeps).  Returns
`(success_count, errors)` and the updated store.  The `errors` list only
receives entries when `cursor.execute` raises; executing the whitelisted
assignments modelled here never raises, so it is always empty. -/
def bulk_update_users (db : DB)
    (updates : List (String × List (String × String))) :
    (Nat × List String) × DB :=
  let r := bulkLoop db 0 updates
  ((r.1, []), r.2)

/-- The `updates_data` structure built by the `admin_bulk_edit` route
(`app.py` lines 371-374): every selected id is mapped to the same
single-field update. -/
def bulkEditUpdates (member_ids : List String) (field value : String) :
    List (String × List (String × String)) :=
  member_ids.map (fun mid => (mid, [(field, value)]))

/-- The row transformation a bulk update performs when it sets
`membership_type` to `"lifetime"`: the field itself plus the automatic
renewal-date assignment. -/
def updLifetime (u : Member) : Member :=
  { u with membership_type := "lifetime",
           membership_renewal_date := "2099-12-31" }

/-! ## Concrete fixtures used by witnesses and counterexamples -/

/-- A sample roster member. -/
def alice : Member :=
  ⟨"A", "Alice", "1990-01-01", "addr one", "O+", "111", "",
   "annually", "2024-01-01", "2025-01-01", "pw1"⟩

/-- A second sample roster member. -/
def bob : Member :=
  ⟨"B", "Bob", "1991-02-02", "addr two", "A+", "222", "",
   "annually", "2024-01-01", "2025-01-01", "123456"⟩

/-- A sample store holding `alice` and `bob` and no login logs. -/
def dbEx : DB := ⟨[alice, bob], []⟩

/-- A session in which an administrator is logged in. -/
def adminSession : Session :=
  { member_id := none, logged_in := false, is_admin := true,
    admin_username := some "admin" }

/-- A session in which member `"A"` is logged in. -/
def aliceSession : Session :=
  { member_id := some "A", logged_in := true, is_admin := false,
    admin_username := none }

/-- A session in which member `"B"` is logged in. -/
def bobSession : Session :=
  { member_id := some "B", logged_in := true, is_admin := false,
    admin_username := none }

/-! ### Codec roundtrip lemmas -/

theorem decChar_encChar (c : Char) : decChar (encChar c) = some c := by
  unfold decChar encChar
  have hval : Nat.isValidChar (c.toNat + 100 - 100) := by
    simpa using c.valid
  rw [if_pos ⟨by omega, hval⟩]
  simp [Char.ofNat_toNat]

theorem decStr_encStr (s : String) : decStr (encStr s) = some s := by
  unfold decStr encStr
  have h : ∀ cs : List Char, decStrAux (cs.map encChar) = some cs := by
    intro cs
    induction cs with
    | nil => rfl
    | cons c cs ih =>
      rw [List.map_cons, decStrAux, decChar_encChar, ih]
  rw [h s.data]
  rfl

theorem encChar_ge (c : Char) : 100 ≤ encChar c := by
  unfold encChar; omega

theorem mem_encStr_ge {s : String} {n : Nat} (h : n ∈ encStr s) : 100 ≤ n := by
  unfold encStr at h
  obtain ⟨c, _, rfl⟩ := List.mem_map.mp h
  exact encChar_ge c

theorem not_mem_encStr {s : String} {n : Nat} (h : n < 100) : n ∉ encStr s := by
  intro hmem
  exact absurd (mem_encStr_ge hmem) (by omega)

theorem mem_serializePayload {kvs : List (String × String)} {n : Nat}
    (h : n ∈ serializePayload kvs) : n = 50 ∨ n = 51 ∨ 100 ≤ n := by
  induction kvs with
  | nil => simp [serializePayload] at h
  | cons kv rest ih =>
    unfold serializePayload at h
    rcases List.mem_append.mp h with hk | hrest
    · right; right; exact mem_encStr_ge hk
    · rcases List.mem_cons.mp hrest with h50 | h2
      · left; exact h50
      · rcases List.mem_append.mp h2 with hv | h3
        · right; right; exact mem_encStr_ge hv
        · rcases List.mem_cons.mp h3 with h51 | h4
          · right; left; exact h51
          · exact ih h4

theorem dot_not_mem_serializePayload (kvs : List (String × String)) :
    46 ∉ serializePayload kvs := by
  intro h
  rcases mem_serializePayload h with h | h | h <;> omega

theorem dot_not_mem_macSign {secret : String} {msg : List Nat}
    (hmsg : 46 ∉ msg) : 46 ∉ macSign secret msg := by
  intro h
  unfold macSign at h
  rcases List.mem_append.mp h with h | h
  · exact absurd (mem_encStr_ge h) (by omega)
  · rcases List.mem_cons.mp h with h | h
    · omega
    · exact hmsg h

theorem takeUntil_append (sep : Nat) (xs ys : List Nat)
    (h : sep ∉ xs) : takeUntil sep (xs ++ sep :: ys) = some (xs, ys) := by
  induction xs with
  | nil => simp [takeUntil]
  | cons x xs ih =>
    have hx : x ≠ sep := fun he => h (he ▸ List.mem_cons_self x xs)
    have hxs : sep ∉ xs := fun hm => h (List.mem_cons_of_mem x hm)
    simp only [List.cons_append, takeUntil, if_neg hx]
    rw [show xs.append (sep :: ys) = xs ++ sep :: ys from rfl, ih hxs]

theorem takeUntil_eq_none {sep : Nat} {xs : List Nat} (h : sep ∉ xs) :
    takeUntil sep xs = none := by
  induction xs with
  | nil => rfl
  | cons x xs ih =>
    have hx : x ≠ sep := fun he => h (he ▸ List.mem_cons_self x xs)
    have hxs : sep ∉ xs := fun hm => h (List.mem_cons_of_mem x hm)
    simp only [takeUntil, if_neg hx, ih hxs]

theorem splitLastDot_append {p s : List Nat} (hs : 46 ∉ s) :
    splitLastDot (p ++ 46 :: s) = some (p, s) := by
  unfold splitLastDot
  have hrev : (p ++ 46 :: s).reverse = s.reverse ++ 46 :: p.reverse := by
    simp
  rw [hrev, takeUntil_append 46 s.reverse p.reverse (by simpa using hs)]
  simp

theorem deserializeAux_serialize (kvs : List (String × String)) :
    ∀ fuel, (serializePayload kvs).length ≤ fuel →
      deserializeAux fuel (serializePayload kvs) = some kvs := by
  induction kvs with
  | nil => intro fuel _; cases fuel <;> rfl
  | cons kv rest ih =>
    intro fuel hfuel
    obtain ⟨k, v⟩ := kv
    have hlen : (serializePayload ((k, v) :: rest)).length =
        (encStr k).length + (encStr v).length + (serializePayload rest).length + 2 := by
      simp [serializePayload]; omega
    match fuel with
    | 0 => omega
    | fuel + 1 =>
      have h50 : takeUntil 50 (encStr k ++ 50 :: (encStr v ++ 51 :: serializePayload rest)) =
          some (encStr k, encStr v ++ 51 :: serializePayload rest) :=
        takeUntil_append 50 (encStr k) _ (not_mem_encStr (by omega))
      have h51 : takeUntil 51 (encStr v ++ 51 :: serializePayload rest) =
          some (encStr v, serializePayload rest) :=
        takeUntil_append 51 (encStr v) _ (not_mem_encStr (by omega))
      show deserializeAux (fuel + 1)
        (encStr k ++ 50 :: (encStr v ++ 51 :: serializePayload rest)) = _
      rw [deserializeAux, h50]
      · simp only [h51, decStr_encStr, ih fuel (by omega)]
      · intro h
        have := congrArg List.length h
        simp at this

theorem deserializePayload_serialize (kvs : List (String × String)) :
    deserializePayload (serializePayload kvs) = some kvs :=
  deserializeAux_serialize kvs _ (Nat.le_refl _)

/-- Roundtrip: decoding an encoded payload with the same secret recovers
the payload. -/
theorem loads_dumps (secret : String) (kvs : List (String × String)) :
    loads secret (dumps secret kvs) = some kvs := by
  unfold loads dumps
  rw [@splitLastDot_append (serializePayload kvs) (macSign secret (serializePayload kvs))
    (dot_not_mem_macSign (dot_not_mem_serializePayload kvs))]
  simp [deserializePayload_serialize]

theorem encChar_injective : Function.Injective encChar := by
  intro c c' h
  unfold encChar at h
  have ht : c.toNat = c'.toNat := by omega
  calc c = Char.ofNat c.toNat := (Char.ofNat_toNat c).symm
    _ = Char.ofNat c'.toNat := by rw [ht]
    _ = c' := Char.ofNat_toNat c'

theorem encStr_injective : Function.Injective encStr := by
  intro s s' h
  unfold encStr at h
  exact String.ext (List.map_injective_iff.mpr encChar_injective h)

theorem marker_not_mem_encStr {s : String} : 52 ∉ encStr s :=
  not_mem_encStr (by omega)

/-- The modelled signature determines both the secret and the message. -/
theorem macSign_inj {s1 s2 : String} {m1 m2 : List Nat}
    (h : macSign s1 m1 = macSign s2 m2) : s1 = s2 ∧ m1 = m2 := by
  have h1 : takeUntil 52 (macSign s1 m1) = some (encStr s1, m1) :=
    takeUntil_append 52 (encStr s1) m1 marker_not_mem_encStr
  have h2 : takeUntil 52 (macSign s2 m2) = some (encStr s2, m2) :=
    takeUntil_append 52 (encStr s2) m2 marker_not_mem_encStr
  rw [h] at h1
  rw [h1] at h2
  simp only [Option.some.injEq, Prod.mk.injEq] at h2
  exact ⟨encStr_injective h2.1, h2.2⟩

theorem splitLastDot_eq_none {t : List Nat} (h : 46 ∉ t) :
    splitLastDot t = none := by
  unfold splitLastDot
  rw [takeUntil_eq_none (by simpa using h)]

/-- Decoding with a different secret rejects the token. -/
theorem loads_other_secret {S1 S2 : String} (kvs : List (String × String))
    (h : S1 ≠ S2) : loads S2 (dumps S1 kvs) = none := by
  unfold loads dumps
  rw [@splitLastDot_append (serializePayload kvs) (macSign S1 (serializePayload kvs))
    (dot_not_mem_macSign (dot_not_mem_serializePayload kvs))]
  have hne : macSign S1 (serializePayload kvs) ≠ macSign S2 (serializePayload kvs) := by
    intro he
    exact h (macSign_inj he).1
  simp [hne]

theorem getD_set_self {l : List Nat} {i : Nat} {c : Nat} (h : i < l.length) :
    (l.set i c).getD i 0 = c := by
  have hlt : i < (l.set i c).length := by rw [List.length_set]; exact h
  rw [List.getD_eq_getElem _ _ hlt]
  exact List.getElem_set_self hlt

/-- Single-character tampering: changing any one position of a token
produced by `dumps` makes `loads` fail. -/
theorem loads_set_ne {secret : String} {kvs : List (String × String)}
    {i : Nat} {c : Nat} (hi : i < (dumps secret kvs).length)
    (hc : c ≠ (dumps secret kvs).getD i 0) :
    loads secret ((dumps secret kvs).set i c) = none := by
  set P := serializePayload kvs with hP
  set S := macSign secret P with hS
  have hPdot : 46 ∉ P := dot_not_mem_serializePayload kvs
  have hSdot : 46 ∉ S := dot_not_mem_macSign hPdot
  have hlenS : S.length = (encStr secret).length + 1 + P.length := by
    rw [hS]; unfold macSign; simp; omega
  have ht : dumps secret kvs = P ++ 46 :: S := rfl
  rw [ht] at hi hc ⊢
  have hlen : (P ++ 46 :: S).length = P.length + 1 + S.length := by simp; omega
  rcases Nat.lt_trichotomy i P.length with hiP | hiP | hiP
  · -- tampering inside the payload part
    have hset : (P ++ 46 :: S).set i c = P.set i c ++ 46 :: S := by
      rw [List.set_append, if_pos hiP]
    have hgetD : (P ++ 46 :: S).getD i 0 = P.getD i 0 :=
      List.getD_append P (46 :: S) 0 i hiP
    rw [hset, loads,
      @splitLastDot_append (P.set i c) S hSdot]
    have hne : S ≠ macSign secret (P.set i c) := by
      intro he
      have hPP : P = P.set i c := (macSign_inj (hS ▸ he)).2
      have : (P.set i c).getD i 0 = c := getD_set_self hiP
      rw [← hPP] at this
      rw [hgetD] at hc
      exact hc (this ▸ rfl)
    simp [hne]
  · -- tampering the separator itself
    subst hiP
    have hset : (P ++ 46 :: S).set P.length c = P ++ c :: S := by
      rw [List.set_append, if_neg (by omega), Nat.sub_self]
      rfl
    have hgetD : (P ++ 46 :: S).getD P.length 0 = 46 := by
      rw [List.getD_append_right _ _ _ _ (Nat.le_refl _), Nat.sub_self,
        List.getD_cons_zero]
    rw [hgetD] at hc
    rw [hset, loads, splitLastDot_eq_none]
    intro hmem
    rcases List.mem_append.mp hmem with h | h
    · exact hPdot h
    · rcases List.mem_cons.mp h with h | h
      · exact hc h.symm
      · exact hSdot h
  · -- tampering inside the signature part
    obtain ⟨j, rfl⟩ : ∃ j, i = P.length + 1 + j := ⟨i - P.length - 1, by omega⟩
    have hjS : j < S.length := by omega
    have hset : (P ++ 46 :: S).set (P.length + 1 + j) c = P ++ 46 :: S.set j c := by
      rw [List.set_append, if_neg (by omega)]
      have : P.length + 1 + j - P.length = j + 1 := by omega
      rw [this]
      rfl
    have hgetD : (P ++ 46 :: S).getD (P.length + 1 + j) 0 = S.getD j 0 := by
      rw [List.getD_append_right _ _ _ _ (by omega),
        show P.length + 1 + j - P.length = j + 1 from by omega,
        List.getD_cons_succ]
    rw [hgetD] at hc
    rw [hset, loads]
    by_cases hc46 : c = 46
    · -- the tampered character introduces a later separator
      subst hc46
      have hsplit : S.set j 46 = S.take j ++ 46 :: S.drop (j + 1) := by
        rw [List.set_eq_take_append_cons_drop, if_pos hjS]
      have hassoc : P ++ 46 :: (S.take j ++ 46 :: S.drop (j + 1)) =
          (P ++ 46 :: S.take j) ++ 46 :: S.drop (j + 1) := by simp
      rw [hsplit, hassoc,
        @splitLastDot_append (P ++ 46 :: S.take j) (S.drop (j + 1))
          (fun hm => hSdot (List.mem_of_mem_drop hm))]
      have hne : S.drop (j + 1) ≠ macSign secret (P ++ 46 :: S.take j) := by
        intro he
        have hlenEq := congrArg List.length he
        have h1 : (S.drop (j + 1)).length = S.length - (j + 1) := by simp
        have h2 : (macSign secret (P ++ 46 :: S.take j)).length =
            (encStr secret).length + 1 + (P.length + 1 + j) := by
          unfold macSign
          rw [List.length_append, List.length_cons, List.length_append,
            List.length_cons, List.length_take, Nat.min_eq_left (Nat.le_of_lt hjS)]
          omega
        rw [h1, h2] at hlenEq
        omega
      simp [hne]
    · -- the tampered character stays outside the separator alphabet
      have hSdot' : 46 ∉ S.set j c := by
        intro hm
        rcases List.mem_or_eq_of_mem_set hm with h | h
        · exact hSdot h
        · exact hc46 h.symm
      rw [@splitLastDot_append P (S.set j c) hSdot']
      have hne : S.set j c ≠ macSign secret P := by
        rw [← hS]
        intro he
        have : (S.set j c).getD j 0 = c := getD_set_self hjS
        rw [he] at this
        exact hc this.symm
      simp [hne]


/-! ## Handler-level lemmas shared by several claims -/

theorem dictGet_member_id (m : String) :
    dictGet "member_id" [("member_id", m)] = some m := rfl

/-- `secure_login` on a freshly minted token behaves exactly as `login`
on the encoded member id. -/
theorem secure_login_qrToken (secret m : String) (method : Method)
    (form : Option String) (s : Session) (db : DB) :
    secure_login secret (qrToken secret m) method form s db =
      login (some m) method form s db := by
  unfold secure_login
  rw [show loads secret (qrToken secret m) = some [("member_id", m)] from
    loads_dumps secret _]
  show login (dictGet "member_id" [("member_id", m)]) method form s db = _
  rw [dictGet_member_id]

/-! ## The claims -/

/-- C1: for every member identifier `m`, the token minted by
`generate_qr_code` (`serializer.dumps({'member_id': m})`) is decoded by
`secure_login` (`serializer.loads`) back to the same member identifier
`m` under the same secret: decoding recovers the payload exactly, the
extracted `member_id` is `m`, and the request proceeds exactly as a
direct login for `m`. -/
theorem C1_decode_encode_roundtrip (secret m : String) (method : Method)
    (form : Option String) (s : Session) (db : DB) :
    loads secret (qrToken secret m) = some [("member_id", m)] ∧
    dictGet "member_id" [("member_id", m)] = some m ∧
    secure_login secret (qrToken secret m) method form s db =
      login (some m) method form s db :=
  ⟨loads_dumps secret _, rfl, secure_login_qrToken secret m method form s db⟩

/-- C2: a token minted under secret `S1` is rejected when decoded under a
different secret `S2`, and altering any single character of a valid
token makes decoding fail rather than return a member identifier. -/
theorem C2_wrong_secret_and_tampering (S1 S2 m : String) (i c : Nat)
    (hne : S1 ≠ S2) (hi : i < (qrToken S1 m).length)
    (hc : c ≠ (qrToken S1 m).getD i 0) :
    loads S2 (qrToken S1 m) = none ∧
    loads S1 ((qrToken S1 m).set i c) = none :=
  ⟨loads_other_secret _ hne, loads_set_ne hi hc⟩

/-- Witness for C2 at `S1 = "k1"`, `S2 = "k2"`, `m = "M042"`, altering
position 0 to the character code 0. -/
theorem C2_wrong_secret_and_tampering_witness :
    (("k1" : String) ≠ "k2" ∧ 0 < (qrToken "k1" "M042").length ∧
      (0 : Nat) ≠ (qrToken "k1" "M042").getD 0 0) ∧
    (loads "k2" (qrToken "k1" "M042") = none ∧
      loads "k1" ((qrToken "k1" "M042").set 0 0) = none) :=
  ⟨⟨by decide, by decide, by decide⟩,
    C2_wrong_secret_and_tampering "k1" "k2" "M042" 0 0 (by decide) (by decide)
      (by decide)⟩

/-- C3: every request to `secure_login` whose token fails to decode ends
in the 403 error page, with the session and the database (hence the
login log, hence password verification) untouched. -/
theorem C3_bad_token_rejected (secret : String) (token : List Nat)
    (method : Method) (form : Option String) (s : Session) (db : DB)
    (h : loads secret token = none) :
    secure_login secret token method form s db =
      (.errorPage "Invalid or expired QR code!" 403, s, db) := by
  unfold secure_login
  rw [h]

/-- Witness for C3: the empty token fails to decode and is rejected with
a 403 while session and store stay as they were. -/
theorem C3_bad_token_rejected_witness :
    loads "k1" [] = none ∧
    secure_login "k1" [] .get none adminSession dbEx =
      (.errorPage "Invalid or expired QR code!" 403, adminSession, dbEx) :=
  ⟨by decide,
    C3_bad_token_rejected "k1" [] .get none adminSession dbEx (by decide)⟩

/-- C10: a correctly signed token whose payload dictionary lacks the
`'member_id'` key is not rejected as invalid (no 403): decoding succeeds,
the extracted member identifier is `None`, which resolves to no member,
so the request takes the 404 user-not-found path; session and store are
unchanged. -/
theorem C10_signed_payload_without_member_id (secret : String)
    (kvs : List (String × String)) (method : Method) (form : Option String)
    (s : Session) (db : DB) (h : dictGet "member_id" kvs = none) :
    loads secret (dumps secret kvs) = some kvs ∧
    secure_login secret (dumps secret kvs) method form s db =
      (.errorPage "User not found! Please check your QR code." 404, s, db) := by
  refine ⟨loads_dumps secret kvs, ?_⟩
  unfold secure_login
  rw [loads_dumps secret kvs]
  show login (dictGet "member_id" kvs) method form s db = _
  rw [h]
  rfl

/-- Witness for C10 with payload `{'foo': 'bar'}`. -/
theorem C10_signed_payload_without_member_id_witness :
    dictGet "member_id" [("foo", "bar")] = none ∧
    (loads "k1" (dumps "k1" [("foo", "bar")]) = some [("foo", "bar")] ∧
      secure_login "k1" (dumps "k1" [("foo", "bar")]) .get none bobSession dbEx =
        (.errorPage "User not found! Please check your QR code." 404,
          bobSession, dbEx)) :=
  ⟨by decide,
    C10_signed_payload_without_member_id "k1" [("foo", "bar")] .get none
      bobSession dbEx (by decide)⟩

theorem verify_password_correct {db : DB} {m : String} {u : Member}
    {pw : String} (hu : rowFor db (some m) = some u) (hp : u.password = pw) :
    verify_password db (some m) pw = (true, log_login_attempt db (some m) true) := by
  unfold verify_password
  simp only [hu]
  rw [if_pos hp]

theorem verify_password_incorrect {db : DB} {m : String} {u : Member}
    {pw : String} (hu : rowFor db (some m) = some u) (hp : u.password ≠ pw) :
    verify_password db (some m) pw = (false, log_login_attempt db (some m) false) := by
  unfold verify_password
  simp only [hu]
  rw [if_neg hp]

/-- C4: a `GET` on `secure_login` with a freshly minted token for `m`,
when no session is active, behaves exactly as a direct `GET` on
`/login/m`: if `m` resolves to an existing member `u` the password prompt
scoped exactly to that member (whose id is `m`, never a different one) is
rendered; if `m` does not resolve, the request ends in the 404
user-not-found page. -/
theorem C4_valid_token_reaches_prompt (secret m : String) (s : Session)
    (db : DB) (hs : s = {}) :
    secure_login secret (qrToken secret m) .get none s db =
      login (some m) .get none s db ∧
    (match get_user_by_id db (some m) with
     | some u =>
       u.member_id = m ∧
       secure_login secret (qrToken secret m) .get none s db =
         (.loginPage u none, {}, db)
     | none =>
       secure_login secret (qrToken secret m) .get none s db =
         (.errorPage "User not found! Please check your QR code." 404, s, db)) := by
  subst hs
  refine ⟨secure_login_qrToken secret m .get none {} db, ?_⟩
  rw [secure_login_qrToken secret m .get none {} db]
  cases hfind : get_user_by_id db (some m) with
  | none =>
    unfold login
    simp only [hfind]
  | some u =>
    have hfind' : db.users.find? (fun v => v.member_id == m) = some u := hfind
    refine ⟨?_, ?_⟩
    · have hp := List.find?_some hfind'
      exact eq_of_beq hp
    · unfold login
      simp only [hfind]

/-- Witness for C4 at member `"A"` of the sample store. -/
theorem C4_valid_token_reaches_prompt_witness :
    (({} : Session) = {}) ∧
    (secure_login "k1" (qrToken "k1" "A") .get none {} dbEx =
        login (some "A") .get none {} dbEx ∧
      (match get_user_by_id dbEx (some "A") with
       | some u =>
         u.member_id = "A" ∧
         secure_login "k1" (qrToken "k1" "A") .get none {} dbEx =
           (.loginPage u none, {}, dbEx)
       | none =>
         secure_login "k1" (qrToken "k1" "A") .get none {} dbEx =
           (.errorPage "User not found! Please check your QR code." 404,
             {}, dbEx))) :=
  ⟨rfl, C4_valid_token_reaches_prompt "k1" "A" {} dbEx rfl⟩

/-- C5: with an administrator session, the admin view-profile route shows
any existing member's profile (or redirects to the user list when the id
is unknown) purely on the strength of the admin session: the store —
including the login log that every `verify_password` call appends to — is
never touched, so no password of the member is required or checked. -/
theorem C5_admin_view_without_password (mid : String) (s : Session)
    (db : DB) (hadmin : s.is_admin = true) :
    (match get_user_by_id db (some mid) with
     | some u => admin_view_profile mid s db = (.profilePage u true, s, db)
     | none => admin_view_profile mid s db = (.redirectAdminUsers, s, db)) ∧
    (admin_view_profile mid s db).2.2 = db := by
  unfold admin_view_profile
  simp only [hadmin, Bool.not_true]
  cases hfind : get_user_by_id db (some mid) with
  | none => simp only [hfind]; exact ⟨rfl, rfl⟩
  | some u => simp only [hfind]; exact ⟨rfl, rfl⟩

/-- Witness for C5: the admin session views member `"B"`'s profile. -/
theorem C5_admin_view_without_password_witness :
    adminSession.is_admin = true ∧
    ((match get_user_by_id dbEx (some "B") with
      | some u =>
        admin_view_profile "B" adminSession dbEx =
          (.profilePage u true, adminSession, dbEx)
      | none =>
        admin_view_profile "B" adminSession dbEx =
          (.redirectAdminUsers, adminSession, dbEx)) ∧
     (admin_view_profile "B" adminSession dbEx).2.2 = dbEx) :=
  ⟨rfl, C5_admin_view_without_password "B" adminSession dbEx rfl⟩

/-- C6: submitting a (non-empty) password on the login page of an
existing member `m` always invokes `verify_password`, which appends one
`LoginAttempt` record whose flag matches the outcome: a correct password
establishes the member session for `m` and logs a success; a wrong
password establishes no session, renders the password prompt again, and
logs a failure. -/
theorem C6_password_verified_and_logged (m pw : String) (s : Session)
    (db : DB) (u : Member) (hu : get_user_by_id db (some m) = some u)
    (hpw : pw ≠ "") :
    (u.password = pw →
      login (some m) .post (some pw) s db =
        (.redirectUserProfile (some m),
         { member_id := some m, logged_in := true, is_admin := false,
           admin_username := none },
         log_login_attempt db (some m) true)) ∧
    (u.password ≠ pw →
      login (some m) .post (some pw) s db =
        (.loginPage u (some "❌ Invalid password! Please try again."), {},
         log_login_attempt db (some m) false)) := by
  have hu' : rowFor db (some m) = some u := hu
  constructor
  · intro hp
    unfold login
    simp only [hu, Option.getD_some]
    rw [if_neg hpw, verify_password_correct hu' hp]
    rfl
  · intro hp
    unfold login
    simp only [hu, Option.getD_some]
    rw [if_neg hpw, verify_password_incorrect hu' hp]
    rfl

/-- Witness for C6: member `"A"` submits the correct and a wrong
password. -/
theorem C6_password_verified_and_logged_witness :
    (get_user_by_id dbEx (some "A") = some alice ∧ ("pw1" : String) ≠ "") ∧
    ((alice.password = "pw1" →
      login (some "A") .post (some "pw1") bobSession dbEx =
        (.redirectUserProfile (some "A"),
         { member_id := some "A", logged_in := true, is_admin := false,
           admin_username := none },
         log_login_attempt dbEx (some "A") true)) ∧
     (alice.password ≠ "pw1" →
      login (some "A") .post (some "pw1") bobSession dbEx =
        (.loginPage alice (some "❌ Invalid password! Please try again."), {},
         log_login_attempt dbEx (some "A") false))) :=
  ⟨⟨by decide, by decide⟩,
    C6_password_verified_and_logged "A" "pw1" bobSession dbEx alice
      (by decide) (by decide)⟩

/-- C9: for any request to `/login/<member_id>` with an existing member,
the handler's outcome is independent of the incoming session (which is
cleared before the form is shown or any password verified): the result
never retains admin state, and a `GET` from any session leaves the empty
session. -/
theorem C9_login_page_clears_session (mid : String) (method : Method)
    (form : Option String) (s s2 : Session) (db : DB) (u : Member)
    (hu : get_user_by_id db (some mid) = some u) :
    login (some mid) method form s db = login (some mid) method form s2 db ∧
    ((login (some mid) method form s db).2.1.is_admin = false ∧
     (login (some mid) method form s db).2.1.admin_username = none) ∧
    login (some mid) .get form s db = (.loginPage u none, {}, db) := by
  refine ⟨?_, ⟨?_, ?_⟩, ?_⟩
  · unfold login
    simp only [hu]
  · unfold login
    simp only [hu]
    cases method with
    | get => rfl
    | post =>
      by_cases hpw : form.getD "" = ""
      · simp only [hpw]
        rfl
      · rw [if_neg hpw]
        by_cases hv : (verify_password db (some mid) (form.getD "")).1 = true
        · simp only [hv]
          rfl
        · simp only [Bool.not_eq_true] at hv
          simp only [hv]
          rfl
  · unfold login
    simp only [hu]
    cases method with
    | get => rfl
    | post =>
      by_cases hpw : form.getD "" = ""
      · simp only [hpw]
        rfl
      · rw [if_neg hpw]
        by_cases hv : (verify_password db (some mid) (form.getD "")).1 = true
        · simp only [hv]
          rfl
        · simp only [Bool.not_eq_true] at hv
          simp only [hv]
          rfl
  · unfold login
    simp only [hu]

/-- Witness for C9: an admin session opening Alice's login page is wiped
out. -/
theorem C9_login_page_clears_session_witness :
    get_user_by_id dbEx (some "A") = some alice ∧
    (login (some "A") .get none adminSession dbEx =
        login (some "A") .get none bobSession dbEx ∧
      ((login (some "A") .get none adminSession dbEx).2.1.is_admin = false ∧
       (login (some "A") .get none adminSession dbEx).2.1.admin_username = none) ∧
      login (some "A") .get none adminSession dbEx =
        (.loginPage alice none, {}, dbEx)) :=
  ⟨by decide,
    C9_login_page_clears_session "A" .get none adminSession bobSession dbEx
      alice (by decide)⟩

/-! ### Password-change lemmas for C7 -/

theorem change_user_password_found {db : DB} {m : String} {u : Member}
    (new : String) (hu : rowFor db (some m) = some u) :
    change_user_password db (some m) new =
      ((true, "Password changed successfully!"),
       { db with users := db.users.map (fun v =>
           if v.member_id == m then { v with password := new } else v) }) := by
  have hu' : db.users.find? (fun v => v.member_id == m) = some u := hu
  have hmem : u ∈ db.users := List.mem_of_find?_eq_some hu'
  have hbu := List.find?_some hu'
  have hpos : 0 < db.users.countP (fun v => v.member_id == m) :=
    List.countP_pos.mpr ⟨u, hmem, hbu⟩
  unfold change_user_password
  dsimp only
  rw [if_pos hpos]

theorem find?_map_password {l : List Member} {m new : String} :
    (l.map (fun v => if v.member_id == m then { v with password := new } else v)).find?
        (fun v => v.member_id == m) =
      (l.find? (fun v => v.member_id == m)).map
        (fun v => if v.member_id == m then { v with password := new } else v) := by
  induction l with
  | nil => rfl
  | cons a l ih =>
    by_cases h : (a.member_id == m) = true
    · have hfL : ((a :: l).map (fun v =>
            if v.member_id == m then { v with password := new } else v)).find?
            (fun v => v.member_id == m) =
          some (if a.member_id == m then { a with password := new } else a) := by
        rw [List.map_cons]
        exact List.find?_cons_of_pos _ (by rw [if_pos h]; exact h)
      have hfR : (a :: l).find? (fun v => v.member_id == m) = some a :=
        List.find?_cons_of_pos _ h
      rw [hfL, hfR]
      rfl
    · have hfL : ((a :: l).map (fun v =>
            if v.member_id == m then { v with password := new } else v)).find?
            (fun v => v.member_id == m) =
          (l.map (fun v =>
            if v.member_id == m then { v with password := new } else v)).find?
            (fun v => v.member_id == m) := by
        rw [List.map_cons]
        exact List.find?_cons_of_neg _ (by rw [if_neg h]; exact h)
      have hfR : (a :: l).find? (fun v => v.member_id == m) =
          l.find? (fun v => v.member_id == m) :=
        List.find?_cons_of_neg _ h
      rw [hfL, hfR, ih]

theorem db_change_own_password_mismatch {db : DB} {m cur : String}
    {u : Member} (new : String) (hu : rowFor db (some m) = some u)
    (hp : u.password ≠ cur) :
    db_change_own_password db (some m) cur new =
      ((false, "Current password is incorrect!"),
       log_login_attempt db (some m) false) := by
  unfold db_change_own_password
  simp only [verify_password_incorrect hu hp]
  rfl

theorem db_change_own_password_correct {db : DB} {m cur : String}
    {u : Member} (new : String) (hu : rowFor db (some m) = some u)
    (hp : u.password = cur) :
    db_change_own_password db (some m) cur new =
      ((true, "Password changed successfully!"),
       { db with
           login_logs := db.login_logs ++ [⟨some m, true⟩],
           users := db.users.map (fun v =>
             if v.member_id == m then { v with password := new } else v) }) := by
  unfold db_change_own_password
  simp only [verify_password_correct hu hp]
  have hu2 : rowFor (log_login_attempt db (some m) true) (some m) = some u := hu
  rw [change_user_password_found new hu2]
  rfl

/-- C7: a self-service password change succeeds only when the supplied
current password verifies against the member's stored password (on a
mismatch the stored rows are unchanged); a successful change replaces the
stored password and the route clears the session, after which a login
attempt with the old password fails and one with the new password
succeeds. -/
theorem C7_change_own_password_flow (m cur new : String) (s : Session)
    (db : DB) (u : Member) (hu : get_user_by_id db (some m) = some u) :
    (cur ≠ u.password →
      db_change_own_password db (some m) cur new =
        ((false, "Current password is incorrect!"),
         log_login_attempt db (some m) false) ∧
      (db_change_own_password db (some m) cur new).2.users = db.users) ∧
    (cur = u.password →
      (db_change_own_password db (some m) cur new).1 =
        (true, "Password changed successfully!") ∧
      rowFor (db_change_own_password db (some m) cur new).2 (some m) =
        some { u with password := new } ∧
      (cur ≠ new →
        (verify_password (db_change_own_password db (some m) cur new).2
          (some m) cur).1 = false) ∧
      (verify_password (db_change_own_password db (some m) cur new).2
        (some m) new).1 = true) ∧
    (s.logged_in = true → s.member_id = some m → cur = u.password →
      cur ≠ "" → new ≠ "" → 6 ≤ new.length →
      change_own_password_route (some cur) (some new) (some new) s db =
        (.redirectLogin (some m), {},
         (db_change_own_password db (some m) cur new).2)) := by
  have hu' : rowFor db (some m) = some u := hu
  have hbu0 := List.find?_some hu'
  have hbu : (u.member_id == m) = true := hbu0
  refine ⟨?_, ?_, ?_⟩
  · intro hne
    have hp : u.password ≠ cur := fun h => hne h.symm
    rw [db_change_own_password_mismatch new hu' hp]
    exact ⟨rfl, rfl⟩
  · intro hp
    rw [db_change_own_password_correct new hu' hp.symm]
    have hrow : rowFor
        ({ db with
            login_logs := db.login_logs ++ [⟨some m, true⟩],
            users := db.users.map (fun v =>
              if v.member_id == m then { v with password := new } else v) } : DB)
        (some m) = some { u with password := new } := by
      show (db.users.map (fun v =>
        if v.member_id == m then { v with password := new } else v)).find?
          (fun v => v.member_id == m) = _
      have hufind : db.users.find? (fun v => v.member_id == m) = some u := hu'
      rw [find?_map_password, hufind]
      show some (if u.member_id == m then { u with password := new } else u) = _
      rw [if_pos hbu]
    refine ⟨rfl, hrow, ?_, ?_⟩
    · intro hne
      have : ({ u with password := new } : Member).password ≠ cur := by
        intro h
        exact hne (show new = cur from h).symm
      rw [verify_password_incorrect hrow this]
    · rw [verify_password_correct hrow rfl]
  · intro hli hmid hp hcur hnew hlen
    have hnl : (!s.logged_in) = false := by rw [hli]; rfl
    unfold change_own_password_route
    rw [hnl]
    simp only [Bool.false_eq_true, if_false, hmid, Option.getD_some]
    rw [if_neg (by simp [hcur, hnew]), if_neg (by simp),
      if_neg (by omega)]
    rw [db_change_own_password_correct new hu' hp.symm]
    rfl

/-- Witness for C7: Alice changes her password from `"pw1"` to
`"newpw1"`. -/
theorem C7_change_own_password_flow_witness :
    get_user_by_id dbEx (some "A") = some alice ∧
    ((("pw1" : String) ≠ alice.password →
      db_change_own_password dbEx (some "A") "pw1" "newpw1" =
        ((false, "Current password is incorrect!"),
         log_login_attempt dbEx (some "A") false) ∧
      (db_change_own_password dbEx (some "A") "pw1" "newpw1").2.users = dbEx.users) ∧
    (("pw1" : String) = alice.password →
      (db_change_own_password dbEx (some "A") "pw1" "newpw1").1 =
        (true, "Password changed successfully!") ∧
      rowFor (db_change_own_password dbEx (some "A") "pw1" "newpw1").2 (some "A") =
        some { alice with password := "newpw1" } ∧
      (("pw1" : String) ≠ "newpw1" →
        (verify_password (db_change_own_password dbEx (some "A") "pw1" "newpw1").2
          (some "A") "pw1").1 = false) ∧
      (verify_password (db_change_own_password dbEx (some "A") "pw1" "newpw1").2
        (some "A") "newpw1").1 = true) ∧
    (aliceSession.logged_in = true → aliceSession.member_id = some "A" →
      ("pw1" : String) = alice.password →
      ("pw1" : String) ≠ "" → ("newpw1" : String) ≠ "" →
      6 ≤ ("newpw1" : String).length →
      change_own_password_route (some "pw1") (some "newpw1") (some "newpw1")
          aliceSession dbEx =
        (.redirectLogin (some "A"), {},
         (db_change_own_password dbEx (some "A") "pw1" "newpw1").2))) :=
  ⟨by decide,
    C7_change_own_password_flow "A" "pw1" "newpw1" aliceSession dbEx alice
      (by decide)⟩

/-! ### Bulk-update lemmas for C8 -/

theorem member_id_updLifetime (u : Member) :
    (updLifetime u).member_id = u.member_id := rfl

theorem updLifetime_idem (u : Member) :
    updLifetime (updLifetime u) = updLifetime u := rfl

theorem bulkApplyOne_lifetime (db : DB) (mid : String) :
    bulkApplyOne db mid [("membership_type", "lifetime")] =
      (if 0 < db.users.countP (fun u => u.member_id == mid) then 1 else 0,
       { db with users := db.users.map (fun u =>
           if u.member_id == mid then updLifetime u else u) }) := rfl

theorem countP_pos_iff_any {l : List Member} {p : Member → Bool} :
    0 < l.countP p ↔ l.any p = true := by
  rw [List.countP_pos, List.any_eq_true]

theorem ite_countP_any (l : List Member) (p : Member → Bool) :
    (if 0 < l.countP p then 1 else 0) = (if l.any p then 1 else 0) := by
  by_cases h : l.any p = true
  · rw [if_pos (countP_pos_iff_any.mpr h), if_pos h]
  · have h' : ¬0 < l.countP p := fun hp => h (countP_pos_iff_any.mp hp)
    rw [if_neg h', if_neg h]

theorem any_map_updLifetime (l : List Member) (mid m2 : String) :
    ((l.map (fun u => if u.member_id == mid then updLifetime u else u)).any
      (fun u => u.member_id == m2)) = l.any (fun u => u.member_id == m2) := by
  rw [List.any_map]
  congr 1
  funext u
  by_cases h : (u.member_id == mid) = true
  · simp only [Function.comp_apply, if_pos h, member_id_updLifetime]
  · simp only [Function.comp_apply, if_neg h]

theorem map_map_updLifetime (l : List Member) (mid : String) (rest : List String) :
    (l.map (fun u => if u.member_id == mid then updLifetime u else u)).map
        (fun u => if rest.any (fun m2 => u.member_id == m2) then updLifetime u
          else u) =
      l.map (fun u =>
        if (mid :: rest).any (fun m2 => u.member_id == m2) then updLifetime u
        else u) := by
  rw [List.map_map]
  congr 1
  funext u
  by_cases h : (u.member_id == mid) = true
  · simp [Function.comp, h, member_id_updLifetime, updLifetime_idem]
  · simp [Function.comp, h]

theorem bulkLoop_lifetime (mids : List String) : ∀ (db : DB) (acc : Nat),
    bulkLoop db acc (bulkEditUpdates mids "membership_type" "lifetime") =
      (acc + mids.countP (fun mid => db.users.any (fun u => u.member_id == mid)),
       { db with users := db.users.map (fun u =>
           if mids.any (fun mid => u.member_id == mid) then updLifetime u
           else u) }) := by
  induction mids with
  | nil =>
    intro db acc
    show (acc, db) = _
    simp
  | cons mid rest ih =>
    intro db acc
    rw [show bulkEditUpdates (mid :: rest) "membership_type" "lifetime" =
      (mid, [("membership_type", "lifetime")]) ::
        bulkEditUpdates rest "membership_type" "lifetime" from rfl]
    rw [bulkLoop, bulkApplyOne_lifetime]
    dsimp only
    rw [ite_countP_any, ih]
    have hcount : rest.countP (fun m2 =>
        (db.users.map (fun u => if u.member_id == mid then updLifetime u else u)).any
          (fun u => u.member_id == m2)) =
        rest.countP (fun m2 => db.users.any (fun u => u.member_id == m2)) :=
      List.countP_congr (fun m2 _ => by rw [any_map_updLifetime db.users mid m2])
    rw [hcount, map_map_updLifetime db.users mid rest]
    simp only [Prod.mk.injEq, List.countP_cons]
    constructor
    · omega
    · trivial

/-- The bulk update over the `admin_bulk_edit` shape,
`{mid: {'membership_type': 'lifetime'} for mid in mids}`, fully
characterised: every selected id that matches an existing row is counted
and its row rewritten; ids matching no row are skipped silently; the
errors list stays empty; rows not selected are untouched; the login log
is untouched. -/
theorem bulk_update_users_lifetime (db : DB) (mids : List String) :
    bulk_update_users db (bulkEditUpdates mids "membership_type" "lifetime") =
      ((mids.countP (fun mid => db.users.any (fun u => u.member_id == mid)), []),
       { db with users := db.users.map (fun u =>
           if mids.any (fun mid => u.member_id == mid) then updLifetime u
           else u) }) := by
  unfold bulk_update_users
  rw [bulkLoop_lifetime mids db 0, Nat.zero_add]

/-- C8 counterexample: bulk-setting `membership_type = "lifetime"` for
ids `A`, `B`, `C` of the sample store, where `C` matches no row, returns
`success_count = 2` but an *empty* errors list — not one whose length
reflects the no-row case, as the claim requires. -/
theorem C8_counterexample_silent_no_row :
    (bulk_update_users dbEx
      (bulkEditUpdates ["A", "B", "C"] "membership_type" "lifetime")).1.1 = 2 ∧
    (bulk_update_users dbEx
      (bulkEditUpdates ["A", "B", "C"] "membership_type" "lifetime")).1.2 = [] ∧
    ¬(bulk_update_users dbEx
      (bulkEditUpdates ["A", "B", "C"] "membership_type" "lifetime")).1.2.length = 1 := by
  refine ⟨by decide, by decide, by decide⟩

/-- C8 (amended): every record of a bulk update is processed
independently against the current store (one id matching no row does not
undo or prevent the other updates); `success_count` equals the number of
selected identifiers whose update matched an existing row; identifiers
matching no row are skipped silently — they are neither counted nor
reported, and the returned errors list (which only collects per-record
exceptions) is empty. -/
theorem C8_bulk_update_best_effort (db : DB) (mids : List String) :
    (bulk_update_users db (bulkEditUpdates mids "membership_type" "lifetime")).1.1 =
      mids.countP (fun mid => db.users.any (fun u => u.member_id == mid)) ∧
    (bulk_update_users db (bulkEditUpdates mids "membership_type" "lifetime")).1.2 =
      [] ∧
    (bulk_update_users db (bulkEditUpdates mids "membership_type" "lifetime")).2 =
      { db with users := db.users.map (fun u =>
          if mids.any (fun mid => u.member_id == mid) then updLifetime u
          else u) } := by
  rw [bulk_update_users_lifetime]
  exact ⟨rfl, rfl, rfl⟩

end QRSys
